import Mathlib

/-!
Shallow embedding of the envelopes-interpolator core
(`src/EnvelopesInterpolator.cpp`, `include/EnvelopesInterpolator.h`).

Floating-point samples are modelled as rationals (`ℚ`), C++ `int` as `ℤ`
(or `ℕ` where the value is an index/count), `std::vector<float>` as
`List ℚ`, and a possibly-null `const float*` as `Option (List ℚ)`.
A C-style `(int)` cast of a nonnegative-or-negative real truncates toward
zero, which is `⌊q⌋` for `q ≥ 0` and `⌈q⌉` for `q < 0`.
Writes through the raw output pointer are modelled as rebuilding the
buffer list with the written prefix replaced.
-/

namespace EnvInterp

/-- C-style `(int)` cast of a real value: truncation toward zero. -/
def truncQ (q : ℚ) : ℤ := if q < 0 then ⌈q⌉ else ⌊q⌋

/-- One loop iteration of `EnvelopesInterpolator::stretchCurve`:
`originalLength = inputCurve.size() - 1`,
`originalX = x * originalLength / (newLength-1)`, `x0 = (int)originalX`,
`x1 = min(x0+1, originalLength)`, result `y0 + t*(y1-y0)` with
`t = originalX - x0`. -/
def stretchSample (inputCurve : List ℚ) (newLength : ℤ) (x : ℕ) : ℚ :=
  let originalLength : ℤ := (inputCurve.length : ℤ) - 1
  let originalX : ℚ := (x : ℚ) * (originalLength : ℚ) / ((newLength : ℚ) - 1)
  let x0 : ℤ := truncQ originalX
  let x1 : ℤ := min (x0 + 1) originalLength
  inputCurve.getD x0.toNat 0
    + (originalX - (x0 : ℚ)) * (inputCurve.getD x1.toNat 0 - inputCurve.getD x0.toNat 0)

/-- Models `EnvelopesInterpolator::stretchCurve` (the .cpp definition: integer
`newLength`, no `excludePeak`): resize the output to `newLength` samples and
fill each with `stretchSample`. -/
def stretchCurve (inputCurve : List ℚ) (newLength : ℤ) : List ℚ :=
  (List.range newLength.toNat).map (stretchSample inputCurve newLength)

/-- State of an `EnvelopesInterpolator` object: `_shapes`, `_numberOfShapes`,
`_envsize`, `_peaks`.  Note `numberOfShapes` is stored separately from
`shapes.length`, exactly as in the C++ class. -/
structure Interp where
  shapes : List (List ℚ)
  numberOfShapes : ℕ
  envsize : ℕ
  peaks : List ℤ
  deriving Repr, DecidableEq

/-- The `EnvelopeTable` descriptor struct (`data` may be null). -/
structure EnvelopeTable where
  data : Option (List ℚ)
  envsize : ℕ
  numberOfShapes : ℕ
  peaks : List ℤ

/-- Models `EnvelopesInterpolator(int envsize)`: empty table. -/
def mkEmpty (envsize : ℕ) : Interp :=
  { shapes := [], numberOfShapes := 0, envsize := envsize, peaks := [] }

/-- Models `EnvelopesInterpolator(EnvelopeTable e)`: the member-initializer list sets
`_numberOfShapes` and `_envsize` first; the body then returns early (leaving
`_shapes` and `_peaks` empty) when `e.peaks.size() != _numberOfShapes`,
otherwise copies peaks and slices the flat data buffer into shapes. -/
def ofTable (e : EnvelopeTable) : Interp :=
  if e.peaks.length ≠ e.numberOfShapes then
    { shapes := [], numberOfShapes := e.numberOfShapes, envsize := e.envsize, peaks := [] }
  else
    { shapes := (List.range e.numberOfShapes).map (fun n =>
        (List.range e.envsize).map (fun i => (e.data.getD []).getD (n * e.envsize + i) 0)),
      numberOfShapes := e.numberOfShapes,
      envsize := e.envsize,
      peaks := e.peaks }

/-- The write loop `for (i = 0; i < _envsize; i++) targetbuffer[i] = src(i)`:
entries of the buffer below `envsize` are overwritten, the rest kept. -/
def writeOut (envsize : ℕ) (src : ℕ → ℚ) (buf : List ℚ) : List ℚ :=
  (List.range buf.length).map (fun i => if i < envsize then src i else buf.getD i 0)

/-- Models `if (l_A.size() == 1) l_A.insert(l_A.begin(), 0.0f)`. -/
def padLeft (l : List ℚ) : List ℚ := if l.length = 1 then 0 :: l else l

/-- Models `if (r_A.size() == 1) r_A.push_back(0.0f)`. -/
def padRight (r : List ℚ) : List ℚ := if r.length = 1 then r ++ [0] else r

/-- Models `stretched_A.insert(stretched_A.end()-1, b.begin(), b.end())`: the whole
of `b` is inserted just before the final element of `a`. -/
def recombine (a b : List ℚ) : List ℚ :=
  a.dropLast ++ b ++ a.drop (a.length - 1)

/-- Line 74: `peak = (int)((_peaks[i2] - _peaks[i1]) * s_dec + _peaks[i1])`. -/
def interpPeak (p1 p2 : ℤ) (s_dec : ℚ) : ℤ :=
  truncQ (((p2 : ℚ) - (p1 : ℚ)) * s_dec + (p1 : ℚ))

/-- Models `s_int = (int)s` (as an index; `s ≥ 0` whenever it is used). -/
def sInt (s : ℚ) : ℕ := (truncQ s).toNat

/-- Models `s_dec = s - s_int`. -/
def sDec (s : ℚ) : ℚ := s - (sInt s : ℚ)

/-- Models `i2 = (s_int + 1) % _numberOfShapes`. -/
def idx2 (st : Interp) (s : ℚ) : ℕ := (sInt s + 1) % st.numberOfShapes

/-- The truncated blended peak position computed on line 74, with
`i1 = s_int` and `i2 = (s_int + 1) % _numberOfShapes`. -/
def ghostTrunc (st : Interp) (s : ℚ) : ℤ :=
  interpPeak (st.peaks.getD (sInt s) 0) (st.peaks.getD (idx2 st s) 0) (sDec s)

/-- Lines 77-105: split both neighbor shapes at their own peaks, pad
single-sample halves with a zero, stretch the left halves to `peak + 1`
and the right halves to `_envsize - peak`, and recombine with the
insert-before-last splice.  Returns `(stretched_A, stretched_B)`. -/
def stretchedPair (st : Interp) (i1 i2 : ℕ) (peak : ℤ) : List ℚ × List ℚ :=
  let shapeA := st.shapes.getD i1 []
  let shapeB := st.shapes.getD i2 []
  let pA := (st.peaks.getD i1 0).toNat
  let pB := (st.peaks.getD i2 0).toNat
  let l_A := padLeft (shapeA.take (pA + 1))
  let r_A := padRight (shapeA.drop pA)
  let l_B := padLeft (shapeB.take (pB + 1))
  let r_B := padRight (shapeB.drop pB)
  let sA1 := stretchCurve l_A (peak + 1)
  let sA2 := stretchCurve l_B (peak + 1)
  let sB1 := stretchCurve r_A ((st.envsize : ℤ) - peak)
  let sB2 := stretchCurve r_B ((st.envsize : ℤ) - peak)
  (recombine sA1 sB1, recombine sA2 sB2)

/-- Models `EnvelopesInterpolator::interpolate(float s, float* targetbuffer)`. -/
def interpolateP (st : Interp) (s : ℚ) (buf : List ℚ) : List ℚ :=
  if s < 0 ∨ (st.numberOfShapes : ℚ) ≤ s then
    buf
  else if sDec s = 0 then
    writeOut st.envsize (fun i => (st.shapes.getD (sInt s) []).getD i 0) buf
  else if ghostTrunc st s ≠ 0 ∧ ghostTrunc st s ≠ (st.envsize : ℤ) - 1 then
    writeOut st.envsize (fun i =>
      (1 - sDec s) * ((stretchedPair st (sInt s) (idx2 st s) (ghostTrunc st s)).1.getD i 0)
        + sDec s * ((stretchedPair st (sInt s) (idx2 st s) (ghostTrunc st s)).2.getD i 0)) buf
  else
    writeOut st.envsize (fun i =>
      (1 - sDec s) * ((st.shapes.getD (sInt s) []).getD i 0)
        + sDec s * ((st.shapes.getD (idx2 st s) []).getD i 0)) buf

/-- Models `EnvelopesInterpolator::interpolate(float s, std::vector<float>&)`:
rejects only buffers with `size() < _envsize`. -/
def interpolateV (st : Interp) (s : ℚ) (buf : List ℚ) : List ℚ :=
  if buf.length < st.envsize then buf else interpolateP st s buf

/-- Models `EnvelopesInterpolator::setDataAndPeaks`: only a null `data` pointer is
rejected; otherwise `_numberOfShapes` is set to `peaks.size()` and the flat
buffer is sliced into shapes. -/
def setDataAndPeaks (st : Interp) (data : Option (List ℚ)) (peaks : List ℤ) : Interp :=
  match data with
  | none => st
  | some d =>
    { st with
      numberOfShapes := peaks.length,
      shapes := (List.range peaks.length).map (fun n =>
        (List.range st.envsize).map (fun i => d.getD (n * st.envsize + i) 0)),
      peaks := peaks }

/-- Models `EnvelopesInterpolator::setEnvelopeTable`: rejects a null `data` pointer
and `e.numberOfShapes != e.peaks.size()`; otherwise replaces everything,
including `_envsize`. -/
def setEnvelopeTable (st : Interp) (e : EnvelopeTable) : Interp :=
  match e.data with
  | none => st
  | some d =>
    if e.numberOfShapes ≠ e.peaks.length then st
    else
      { shapes := (List.range e.numberOfShapes).map (fun n =>
          (List.range e.envsize).map (fun i => d.getD (n * e.envsize + i) 0)),
        numberOfShapes := e.numberOfShapes,
        envsize := e.envsize,
        peaks := e.peaks }

/-- The inner rasterization loop of `addLinearShape`: for one consecutive
control-point pair, write `y0 + (x-x0)/(x1-x0) * (y1-y0)` at every index
`x0 ≤ x ≤ x1`. -/
def rasterSeg (shape : List ℚ) (x0 : ℤ) (y0 : ℚ) (x1 : ℤ) (y1 : ℚ) : List ℚ :=
  (List.range shape.length).map (fun (x : ℕ) =>
    if x0 ≤ (x : ℤ) ∧ (x : ℤ) ≤ x1 then
      y0 + (((x : ℚ) - (x0 : ℚ)) / ((x1 : ℚ) - (x0 : ℚ))) * (y1 - y0)
    else shape.getD x 0)

/-- The rasterization of a control-point polyline into a zero-initialized
shape of `envsize` samples. -/
def rasterAll (envsize : ℕ) (points : List (ℤ × ℚ)) : List ℚ :=
  (points.zip points.tail).foldl
    (fun shape pq => rasterSeg shape pq.1.1 pq.1.2 pq.2.1 pq.2.2)
    (List.replicate envsize 0)

/-- Models `EnvelopesInterpolator::addLinearShape`: rejected when
`points[0].first != 0` or `points.back().first != _envsize - 1` (only the
indices are checked); otherwise the rasterized shape and the peak are
appended and `_numberOfShapes` is incremented. -/
def addLinearShape (st : Interp) (points : List (ℤ × ℚ)) (peakPosition : ℤ) : Interp :=
  if (points.headD (0, 0)).1 ≠ 0 ∨ (points.getLastD (0, 0)).1 ≠ (st.envsize : ℤ) - 1 then
    st
  else
    { st with
      shapes := st.shapes ++ [rasterAll st.envsize points],
      numberOfShapes := st.numberOfShapes + 1,
      peaks := st.peaks ++ [peakPosition] }

/-- The Resampler contract as the spec words it (a second definition, kept
for comparison with `stretchCurve` above): output has
`floor(v_len) - (excludePeak ? 1 : 0)` samples; for output index `x`,
`originalX = x * (originalLength-1) / (v_len-1)` with `originalLength` the
sample count, `x0 = floor(originalX)`, `x1 = min(x0+1, originalLength-1)`,
blended with weight `t = originalX - x0`. -/
def stretchCurveSpecModel (input : List ℚ) (vlen : ℚ) (excludePeak : Bool) : List ℚ :=
  let outLen : ℕ := (⌊vlen⌋).toNat - (if excludePeak then 1 else 0)
  (List.range outLen).map (fun (x : ℕ) =>
    let originalX : ℚ := (x : ℚ) * ((input.length : ℚ) - 1) / (vlen - 1)
    let x0 : ℤ := ⌊originalX⌋
    let x1 : ℤ := min (x0 + 1) ((input.length : ℤ) - 1)
    let y0 : ℚ := input.getD x0.toNat 0
    let y1 : ℚ := input.getD x1.toNat 0
    y0 + (originalX - (x0 : ℚ)) * (y1 - y0))

/-- The interpolation algorithm as the spec words it (a second definition,
kept for comparison with `interpolateP` above): the blended peak position is
the real-valued `ghostPeak = peak[i1] + frac(s) * (peak[i2] - peak[i1])`;
left parts are resampled to virtual length `ghostPeak + 1`, right parts are
reversed, resampled to virtual length `envelopeSize - ghostPeak` with
`excludePeak` set when the left virtual length is an integer, and reversed
back; and the degenerate whole-shape blend is taken when both source peaks
coincide at a boundary index. -/
def interpolateSpecModel (st : Interp) (s : ℚ) (buf : List ℚ) : List ℚ :=
  if s < 0 ∨ (st.numberOfShapes : ℚ) ≤ s then
    buf
  else if sDec s = 0 then
    writeOut st.envsize (fun i => (st.shapes.getD (sInt s) []).getD i 0) buf
  else
    let i1 := sInt s
    let i2 := idx2 st s
    let f := sDec s
    let p1 := st.peaks.getD i1 0
    let p2 := st.peaks.getD i2 0
    let ghost : ℚ := (p1 : ℚ) + f * ((p2 : ℚ) - (p1 : ℚ))
    if p1 = p2 ∧ (p1 = 0 ∨ p1 = (st.envsize : ℤ) - 1) then
      writeOut st.envsize (fun i =>
        (1 - f) * ((st.shapes.getD i1 []).getD i 0)
          + f * ((st.shapes.getD i2 []).getD i 0)) buf
    else
      let excl : Bool := if (⌊ghost⌋ : ℚ) = ghost then true else false
      let mk := fun (idx : ℕ) (p : ℤ) =>
        let shape := st.shapes.getD idx []
        let leftPart := shape.take (p.toNat + 1)
        let rightPart := shape.drop p.toNat
        stretchCurveSpecModel leftPart (ghost + 1) false
          ++ (stretchCurveSpecModel rightPart.reverse ((st.envsize : ℚ) - ghost) excl).reverse
      writeOut st.envsize (fun i =>
        (1 - f) * ((mk i1 p1).getD i 0) + f * ((mk i2 p2).getD i 0)) buf

/-- Table-consistency preconditions used by the interpolation claims:
the stored counters agree with the stored lists, every shape has
`envsize` samples, and every peak index is in `[0, envsize)`. -/
def Valid (st : Interp) : Prop :=
  st.numberOfShapes = st.shapes.length ∧
  st.peaks.length = st.shapes.length ∧
  (∀ sh ∈ st.shapes, sh.length = st.envsize) ∧
  (∀ p ∈ st.peaks, 0 ≤ p ∧ p < (st.envsize : ℤ))

/-- Zero-boundary precondition: every stored shape starts and ends at 0. -/
def ZeroEnds (st : Interp) : Prop :=
  ∀ sh ∈ st.shapes, sh.getD 0 0 = 0 ∧ sh.getD (st.envsize - 1) 0 = 0

/-- A two-shape table with interior peaks, used for concrete instances. -/
def tableA : Interp :=
  { shapes := [[0, 1, 0, 0], [0, 0, 1, 0]], numberOfShapes := 2, envsize := 4,
    peaks := [1, 2] }

/-- A two-shape table whose first peak sits at boundary index 0 while the
second peak is interior, used for concrete instances. -/
def tableB : Interp :=
  { shapes := [[0, 2, 0, 0], [0, 4, 0, 0]], numberOfShapes := 2, envsize := 4,
    peaks := [0, 1] }

/-- A one-shape table with `envsize = 2`, used for concrete instances. -/
def tableC : Interp :=
  { shapes := [[0, 0]], numberOfShapes := 1, envsize := 2, peaks := [0] }

/-- A one-shape table with `envsize = 3`, used as a prior state for the
mutation claims. -/
def tablePrior : Interp :=
  { shapes := [[0, 1, 0]], numberOfShapes := 1, envsize := 3, peaks := [1] }

section Lemmas

variable {q s : ℚ} {z : ℤ} {n : ℕ}

theorem truncQ_intCast (z : ℤ) : truncQ (z : ℚ) = z := by
  unfold truncQ
  split <;> simp

theorem truncQ_natCast (n : ℕ) : truncQ (n : ℚ) = n := by
  simpa using truncQ_intCast (n : ℤ)

theorem truncQ_eq_floor (h : 0 ≤ q) : truncQ q = ⌊q⌋ := by
  unfold truncQ
  rw [if_neg (not_lt.mpr h)]

theorem truncQ_nonneg (h : 0 ≤ q) : 0 ≤ truncQ q := by
  rw [truncQ_eq_floor h]
  exact Int.floor_nonneg.mpr h

theorem truncQ_le (h : 0 ≤ q) : (truncQ q : ℚ) ≤ q := by
  rw [truncQ_eq_floor h]
  exact Int.floor_le q

theorem lt_truncQ_add_one (h : 0 ≤ q) : q < truncQ q + 1 := by
  rw [truncQ_eq_floor h]
  exact_mod_cast Int.lt_floor_add_one q

theorem sInt_cast_eq (h : 0 ≤ s) : ((sInt s : ℕ) : ℚ) = ((truncQ s : ℤ) : ℚ) := by
  unfold sInt
  exact_mod_cast congrArg (fun (t : ℤ) => (t : ℚ)) (Int.toNat_of_nonneg (truncQ_nonneg h))

theorem sDec_nonneg (h : 0 ≤ s) : 0 ≤ sDec s := by
  unfold sDec
  rw [sInt_cast_eq h]
  linarith [truncQ_le h]

theorem sDec_lt_one (h : 0 ≤ s) : sDec s < 1 := by
  unfold sDec
  rw [sInt_cast_eq h]
  linarith [lt_truncQ_add_one h]

theorem sInt_lt (h0 : 0 ≤ s) (h1 : s < (n : ℚ)) : sInt s < n := by
  unfold sInt
  have h2 : (truncQ s : ℚ) < (n : ℚ) := lt_of_le_of_lt (truncQ_le h0) h1
  have h3 : truncQ s < (n : ℤ) := by exact_mod_cast h2
  have h4 := truncQ_nonneg h0
  omega

theorem writeOut_length (e : ℕ) (src : ℕ → ℚ) (buf : List ℚ) :
    (writeOut e src buf).length = buf.length := by
  simp [writeOut]

theorem writeOut_getD (e : ℕ) (src : ℕ → ℚ) (buf : List ℚ) {i : ℕ}
    (hi : i < buf.length) :
    (writeOut e src buf).getD i 0 = if i < e then src i else buf.getD i 0 := by
  unfold writeOut
  rw [List.getD_eq_getElem _ _ (by simpa using hi)]
  simp

theorem stretchCurve_length (input : List ℚ) (nl : ℤ) :
    (stretchCurve input nl).length = nl.toNat := by
  simp [stretchCurve]

theorem stretchCurve_getD (input : List ℚ) (nl : ℤ) {x : ℕ} (hx : x < nl.toNat) :
    (stretchCurve input nl).getD x 0 = stretchSample input nl x := by
  unfold stretchCurve
  rw [List.getD_eq_getElem _ _ (by simpa using hx)]
  simp

theorem stretchCurve_first (input : List ℚ) (nl : ℤ) (hnl : 0 < nl.toNat) :
    (stretchCurve input nl).getD 0 0 = input.getD 0 0 := by
  rw [stretchCurve_getD input nl hnl]
  unfold stretchSample
  norm_num [truncQ]

theorem stretchCurve_last (input : List ℚ) (nl : ℤ) (hnl : 2 ≤ nl)
    (hne : input ≠ []) :
    (stretchCurve input nl).getD (nl.toNat - 1) 0 = input.getD (input.length - 1) 0 := by
  have hlen : 1 ≤ input.length := List.length_pos.mpr hne
  have hx : nl.toNat - 1 < nl.toNat := by omega
  rw [stretchCurve_getD input nl hx]
  simp only [stretchSample]
  have h1 : ((nl.toNat : ℕ) : ℚ) = (nl : ℚ) := by
    exact_mod_cast congrArg (fun (t : ℤ) => (t : ℚ)) (Int.toNat_of_nonneg (by omega))
  have hcast : ((nl.toNat - 1 : ℕ) : ℚ) = (nl : ℚ) - 1 := by
    rw [Nat.cast_sub (by omega), h1, Nat.cast_one]
  have hne0 : (nl : ℚ) - 1 ≠ 0 := by
    have : (2 : ℚ) ≤ (nl : ℚ) := by exact_mod_cast hnl
    linarith
  rw [hcast, mul_div_cancel_left₀ _ hne0, truncQ_intCast,
    min_eq_right (by omega : (input.length : ℤ) - 1 ≤ (input.length : ℤ) - 1 + 1),
    sub_self, zero_mul, add_zero]
  have he : ((input.length : ℤ) - 1).toNat = input.length - 1 := by omega
  rw [he]

theorem recombine_length (a b : List ℚ) (ha : a ≠ []) :
    (recombine a b).length = a.length + b.length := by
  have h1 : 1 ≤ a.length := List.length_pos.mpr ha
  simp [recombine]
  omega

theorem recombine_getD_left (a b : List ℚ) {i : ℕ} (hi : i < a.length - 1) :
    (recombine a b).getD i 0 = a.getD i 0 := by
  unfold recombine
  rw [List.getD_append _ _ _ _ (by simp [List.length_dropLast]; omega),
    List.getD_append _ _ _ _ (by simp [List.length_dropLast]; omega)]
  rw [List.getD_eq_getElem _ _ (by simp [List.length_dropLast]; omega),
    List.getD_eq_getElem _ _ (by omega), List.getElem_dropLast]

theorem recombine_getD_mid (a b : List ℚ) {i : ℕ} (hi : i < b.length) :
    (recombine a b).getD (a.length - 1 + i) 0 = b.getD i 0 := by
  unfold recombine
  rw [List.getD_append _ _ _ _ (by simp [List.length_dropLast]; omega),
    List.getD_append_right _ _ _ _ (by simp [List.length_dropLast])]
  simp [List.length_dropLast]

theorem padLeft_head_zero (l : List ℚ) (h : l.getD 0 0 = 0) :
    (padLeft l).getD 0 0 = 0 := by
  unfold padLeft
  split
  · rfl
  · exact h

theorem padLeft_length (l : List ℚ) : (padLeft l).length = if l.length = 1 then 2 else l.length := by
  unfold padLeft
  split <;> simp_all

theorem padRight_length (r : List ℚ) :
    (padRight r).length = if r.length = 1 then 2 else r.length := by
  unfold padRight
  split <;> simp_all

theorem padRight_head (r : List ℚ) (hr : r ≠ []) :
    (padRight r).getD 0 0 = r.getD 0 0 := by
  have h1 : 1 ≤ r.length := List.length_pos.mpr hr
  unfold padRight
  split
  · rw [List.getD_append _ _ _ _ (by omega)]
  · rfl

theorem padRight_last_zero (r : List ℚ) (h : r.getD (r.length - 1) 0 = 0) :
    (padRight r).getD ((padRight r).length - 1) 0 = 0 := by
  unfold padRight
  split
  · rename_i h1
    rw [List.getD_append_right _ _ _ _ (by simp [h1])]
    simp [h1]
  · exact h

theorem take_getD_zero (sh : List ℚ) (k : ℕ) (hk : 0 < k) (hsh : sh ≠ []) :
    (sh.take k).getD 0 0 = sh.getD 0 0 := by
  have h1 : 1 ≤ sh.length := List.length_pos.mpr hsh
  rw [List.getD_eq_getElem _ _ (by simp [List.length_take]; omega),
    List.getD_eq_getElem _ _ (by omega), List.getElem_take]

theorem drop_getD (sh : List ℚ) (k i : ℕ) (h : k + i < sh.length) :
    (sh.drop k).getD i 0 = sh.getD (k + i) 0 := by
  rw [List.getD_eq_getElem _ _ (by simp [List.length_drop]; omega),
    List.getD_eq_getElem _ _ (by omega), List.getElem_drop]

theorem interpolateP_invalid (st : Interp) (s : ℚ) (buf : List ℚ)
    (h : s < 0 ∨ (st.numberOfShapes : ℚ) ≤ s) :
    interpolateP st s buf = buf := by
  rw [interpolateP, if_pos h]

theorem interpolateP_integer (st : Interp) (s : ℚ) (buf : List ℚ)
    (h1 : ¬(s < 0 ∨ (st.numberOfShapes : ℚ) ≤ s)) (h2 : sDec s = 0) :
    interpolateP st s buf
      = writeOut st.envsize (fun i => (st.shapes.getD (sInt s) []).getD i 0) buf := by
  rw [interpolateP, if_neg h1, if_pos h2]

theorem interpolateP_split (st : Interp) (s : ℚ) (buf : List ℚ)
    (h1 : ¬(s < 0 ∨ (st.numberOfShapes : ℚ) ≤ s)) (h2 : ¬sDec s = 0)
    (h3 : ghostTrunc st s ≠ 0 ∧ ghostTrunc st s ≠ (st.envsize : ℤ) - 1) :
    interpolateP st s buf
      = writeOut st.envsize (fun i =>
          (1 - sDec s) * ((stretchedPair st (sInt s) (idx2 st s) (ghostTrunc st s)).1.getD i 0)
            + sDec s * ((stretchedPair st (sInt s) (idx2 st s) (ghostTrunc st s)).2.getD i 0))
          buf := by
  rw [interpolateP, if_neg h1, if_neg h2, if_pos h3]

theorem interpolateP_whole (st : Interp) (s : ℚ) (buf : List ℚ)
    (h1 : ¬(s < 0 ∨ (st.numberOfShapes : ℚ) ≤ s)) (h2 : ¬sDec s = 0)
    (h3 : ¬(ghostTrunc st s ≠ 0 ∧ ghostTrunc st s ≠ (st.envsize : ℤ) - 1)) :
    interpolateP st s buf
      = writeOut st.envsize (fun i =>
          (1 - sDec s) * ((st.shapes.getD (sInt s) []).getD i 0)
            + sDec s * ((st.shapes.getD (idx2 st s) []).getD i 0)) buf := by
  rw [interpolateP, if_neg h1, if_neg h2, if_neg h3]

theorem stretchedPair_fst (st : Interp) (i1 i2 : ℕ) (peak : ℤ) :
    (stretchedPair st i1 i2 peak).1
      = recombine
          (stretchCurve (padLeft ((st.shapes.getD i1 []).take ((st.peaks.getD i1 0).toNat + 1)))
            (peak + 1))
          (stretchCurve (padRight ((st.shapes.getD i1 []).drop (st.peaks.getD i1 0).toNat))
            ((st.envsize : ℤ) - peak)) := rfl

theorem stretchedPair_snd (st : Interp) (i1 i2 : ℕ) (peak : ℤ) :
    (stretchedPair st i1 i2 peak).2
      = recombine
          (stretchCurve (padLeft ((st.shapes.getD i2 []).take ((st.peaks.getD i2 0).toNat + 1)))
            (peak + 1))
          (stretchCurve (padRight ((st.shapes.getD i2 []).drop (st.peaks.getD i2 0).toNat))
            ((st.envsize : ℤ) - peak)) := rfl

theorem ghostTrunc_eq_floor (st : Interp) (s : ℚ) (hs0 : 0 ≤ s)
    (hpk : ∀ p ∈ st.peaks, 0 ≤ p ∧ p < (st.envsize : ℤ))
    (h1 : sInt s < st.peaks.length) (h2 : idx2 st s < st.peaks.length) :
    ghostTrunc st s
      = ⌊((st.peaks.getD (idx2 st s) 0 : ℚ) - (st.peaks.getD (sInt s) 0 : ℚ)) * sDec s
          + (st.peaks.getD (sInt s) 0 : ℚ)⌋ ∧
    0 ≤ ghostTrunc st s ∧ ghostTrunc st s ≤ (st.envsize : ℤ) - 1 := by
  have hd0 : 0 ≤ sDec s := sDec_nonneg hs0
  have hd1 : sDec s < 1 := sDec_lt_one hs0
  have hp1 := hpk _ (List.getD_eq_getElem st.peaks 0 h1 ▸ List.getElem_mem h1)
  have hp2 := hpk _ (List.getD_eq_getElem st.peaks 0 h2 ▸ List.getElem_mem h2)
  have hp1a : (0 : ℚ) ≤ (st.peaks.getD (sInt s) 0 : ℚ) := by exact_mod_cast hp1.1
  have hp2a : (0 : ℚ) ≤ (st.peaks.getD (idx2 st s) 0 : ℚ) := by exact_mod_cast hp2.1
  have hp1b : (st.peaks.getD (sInt s) 0 : ℚ) ≤ (st.envsize : ℚ) - 1 := by
    have : (st.peaks.getD (sInt s) 0 : ℤ) ≤ (st.envsize : ℤ) - 1 := by omega
    push_cast at this ⊢
    exact_mod_cast this
  have hp2b : (st.peaks.getD (idx2 st s) 0 : ℚ) ≤ (st.envsize : ℚ) - 1 := by
    have : (st.peaks.getD (idx2 st s) 0 : ℤ) ≤ (st.envsize : ℤ) - 1 := by omega
    push_cast at this ⊢
    exact_mod_cast this
  have hv0 : 0 ≤ ((st.peaks.getD (idx2 st s) 0 : ℚ) - (st.peaks.getD (sInt s) 0 : ℚ)) * sDec s
      + (st.peaks.getD (sInt s) 0 : ℚ) := by
    nlinarith [mul_nonneg hp2a hd0, mul_nonneg hp1a (by linarith : (0 : ℚ) ≤ 1 - sDec s)]
  have hv1 : ((st.peaks.getD (idx2 st s) 0 : ℚ) - (st.peaks.getD (sInt s) 0 : ℚ)) * sDec s
      + (st.peaks.getD (sInt s) 0 : ℚ) ≤ (st.envsize : ℚ) - 1 := by
    nlinarith [mul_le_mul_of_nonneg_left hp2b hd0,
      mul_le_mul_of_nonneg_left hp1b (by linarith : (0 : ℚ) ≤ 1 - sDec s)]
  have hfl : ghostTrunc st s
      = ⌊((st.peaks.getD (idx2 st s) 0 : ℚ) - (st.peaks.getD (sInt s) 0 : ℚ)) * sDec s
          + (st.peaks.getD (sInt s) 0 : ℚ)⌋ := by
    unfold ghostTrunc interpPeak
    exact truncQ_eq_floor hv0
  refine ⟨hfl, ?_, ?_⟩
  · rw [hfl]
    exact Int.floor_nonneg.mpr hv0
  · rw [hfl]
    have hcast : ((st.envsize : ℚ) - 1) = (((st.envsize : ℤ) - 1 : ℤ) : ℚ) := by
      push_cast
      ring
    calc ⌊((st.peaks.getD (idx2 st s) 0 : ℚ) - (st.peaks.getD (sInt s) 0 : ℚ)) * sDec s
          + (st.peaks.getD (sInt s) 0 : ℚ)⌋
        ≤ ⌊(st.envsize : ℚ) - 1⌋ := Int.floor_le_floor hv1
      _ = (st.envsize : ℤ) - 1 := by rw [hcast, Int.floor_intCast]

theorem stretched_getD_zero_left (sh : List ℚ) (p g : ℤ) (E : ℕ)
    (hsh : sh.length = E) (hE : 3 ≤ E) (hg1 : 1 ≤ g) (hg2 : g ≤ (E : ℤ) - 2)
    (h0 : sh.getD 0 0 = 0) :
    (recombine (stretchCurve (padLeft (sh.take (p.toNat + 1))) (g + 1))
      (stretchCurve (padRight (sh.drop p.toNat)) ((E : ℤ) - g))).getD 0 0 = 0 := by
  rw [recombine_getD_left _ _ (by rw [stretchCurve_length]; omega)]
  rw [stretchCurve_first _ _ (by omega)]
  apply padLeft_head_zero
  rw [take_getD_zero _ _ (by omega) (by rw [← List.length_pos]; omega)]
  exact h0

theorem stretched_getD_last_zero (sh : List ℚ) (p g : ℤ) (E : ℕ)
    (hsh : sh.length = E) (hE : 3 ≤ E) (hg1 : 1 ≤ g) (hg2 : g ≤ (E : ℤ) - 2)
    (hp : p.toNat < E) (hlast : sh.getD (E - 1) 0 = 0) :
    (recombine (stretchCurve (padLeft (sh.take (p.toNat + 1))) (g + 1))
      (stretchCurve (padRight (sh.drop p.toNat)) ((E : ℤ) - g))).getD (E - 1) 0 = 0 := by
  have hlenA : (stretchCurve (padLeft (sh.take (p.toNat + 1))) (g + 1)).length
      = g.toNat + 1 := by
    rw [stretchCurve_length]
    omega
  have hlenB : (stretchCurve (padRight (sh.drop p.toNat)) ((E : ℤ) - g)).length
      = E - g.toNat := by
    rw [stretchCurve_length]
    omega
  have hidx : E - 1 = (stretchCurve (padLeft (sh.take (p.toNat + 1))) (g + 1)).length - 1
      + (E - 1 - g.toNat) := by
    rw [hlenA]
    omega
  rw [hidx, recombine_getD_mid _ _ (by rw [hlenB]; omega)]
  have hi2 : E - 1 - g.toNat = ((E : ℤ) - g).toNat - 1 := by omega
  have hrne : padRight (sh.drop p.toNat) ≠ [] := by
    rw [← List.length_pos, padRight_length]
    split <;> simp [List.length_drop] <;> omega
  rw [hi2, stretchCurve_last _ _ (by omega) hrne]
  apply padRight_last_zero
  rw [List.length_drop, drop_getD _ _ _ (by omega), hsh]
  have h3 : p.toNat + (E - p.toNat - 1) = E - 1 := by omega
  rw [h3]
  exact hlast

theorem stretched_getD_peak (sh : List ℚ) (p g : ℤ) (E : ℕ)
    (hsh : sh.length = E) (hE : 3 ≤ E) (hg1 : 1 ≤ g) (hg2 : g ≤ (E : ℤ) - 2)
    (hp : p.toNat < E) :
    (recombine (stretchCurve (padLeft (sh.take (p.toNat + 1))) (g + 1))
      (stretchCurve (padRight (sh.drop p.toNat)) ((E : ℤ) - g))).getD g.toNat 0
      = sh.getD p.toNat 0 := by
  have hlenA : (stretchCurve (padLeft (sh.take (p.toNat + 1))) (g + 1)).length
      = g.toNat + 1 := by
    rw [stretchCurve_length]
    omega
  have hlenB : (stretchCurve (padRight (sh.drop p.toNat)) ((E : ℤ) - g)).length
      = E - g.toNat := by
    rw [stretchCurve_length]
    omega
  have hidx : g.toNat = (stretchCurve (padLeft (sh.take (p.toNat + 1))) (g + 1)).length - 1
      + 0 := by
    rw [hlenA]
    omega
  rw [hidx, recombine_getD_mid _ _ (by rw [hlenB]; omega)]
  rw [stretchCurve_first _ _ (by omega)]
  have hrne : sh.drop p.toNat ≠ [] := by
    rw [← List.length_pos, List.length_drop]
    omega
  rw [padRight_head _ hrne, drop_getD _ _ _ (by omega), Nat.add_zero]

end Lemmas

/-- C2: for every valid integer factor `k` in `[0, numberOfShapes)` and an
output buffer of size `envelopeSize`, `interpolate(k, buffer)` copies shape
`k` verbatim: after the call, `buffer[i] = shapes[k][i]` for every
`i < envelopeSize`. -/
theorem integer_factor_recovers_shape (st : Interp) (k : ℕ) (buf : List ℚ)
    (hk : k < st.numberOfShapes) (hbuf : buf.length = st.envsize) :
    ∀ i < st.envsize,
      (interpolateP st (k : ℚ) buf).getD i 0 = (st.shapes.getD k []).getD i 0 := by
  intro i hi
  have h0 : (0 : ℚ) ≤ (k : ℚ) := by positivity
  have h1 : ¬((k : ℚ) < 0 ∨ (st.numberOfShapes : ℚ) ≤ (k : ℚ)) := by
    push_neg
    exact ⟨h0, by exact_mod_cast hk⟩
  have hsi : sInt (k : ℚ) = k := by
    unfold sInt
    rw [truncQ_natCast]
    simp
  have h2 : sDec (k : ℚ) = 0 := by
    unfold sDec
    rw [hsi]
    simp
  rw [interpolateP_integer st _ buf h1 h2, hsi, writeOut_getD _ _ _ (by omega), if_pos hi]

/-- Witness for C2 at `st = tableA`, `k = 1`, `i = 2`. -/
theorem integer_factor_recovers_shape_inst :
    1 < tableA.numberOfShapes ∧ ([0, 0, 0, 0] : List ℚ).length = tableA.envsize ∧
      2 < tableA.envsize ∧
      (interpolateP tableA ((1 : ℕ) : ℚ) [0, 0, 0, 0]).getD 2 0
        = (tableA.shapes.getD 1 []).getD 2 0 :=
  ⟨by decide, by decide, by decide,
    integer_factor_recovers_shape tableA 1 [0, 0, 0, 0] (by decide) (by decide) 2 (by decide)⟩

/-- C3: the `.cpp` definition of `stretchCurve` takes a plain `int newLength`
and has no `excludePeak` parameter at all, contradicting the header
declaration `stretchCurve(..., float newLength, bool excludePeak = false)`
and its doc comment; it always produces `newLength` samples and never drops
the final one.  Evaluated at `inputCurve = [0,1,0]`, `newLength = 2`: the
output is the two samples `[0, 0]`, where the claimed contract with
`excludePeak = true` would require a single sample. -/
theorem stretchCurve_length_never_reduced :
    stretchCurve [0, 1, 0] 2 = [0, 0] ∧ (stretchCurve [0, 1, 0] 2).length = 2 := by
  constructor
  · simp only [stretchCurve, show List.range (Int.toNat 2) = [0, 1] from rfl,
      List.map_cons, List.map_nil, stretchSample]
    norm_num [truncQ]
    rfl
  · rw [stretchCurve_length]
    rfl

/-- C5: the `EnvelopeTable` constructor initializes `_numberOfShapes` in the
member-initializer list and only then rejects a peak-count mismatch, so the
rejected state keeps the nonzero `numberOfShapes` while `shapes` and `peaks`
stay empty, violating `shapes.length = peaks.length = numberOfShapes`. -/
theorem ofTable_reject_leaves_count_set :
    (ofTable { data := some [0, 0, 0], envsize := 3, numberOfShapes := 1, peaks := [] }).numberOfShapes = 1 ∧
    (ofTable { data := some [0, 0, 0], envsize := 3, numberOfShapes := 1, peaks := [] }).shapes.length = 0 ∧
    (ofTable { data := some [0, 0, 0], envsize := 3, numberOfShapes := 1, peaks := [] }).peaks.length = 0 := by
  decide

/-- C6 counterexample: with a valid factor and an output buffer one entry
larger than `envelopeSize`, the claim says the buffer is left untouched, but
the vector overload only rejects buffers with `size() < envsize` and writes
the first `envsize` entries of this one. -/
theorem oversized_buffer_is_written :
    ([5, 5, 5] : List ℚ).length ≠ tableC.envsize ∧
    interpolateV tableC 0 [5, 5, 5] = [0, 0, 5] := by
  refine ⟨by decide, ?_⟩
  have h1 : ¬((0 : ℚ) < 0 ∨ (tableC.numberOfShapes : ℚ) ≤ 0) := by norm_num [tableC]
  have h2 : sDec 0 = 0 := by norm_num [sDec, sInt, truncQ]
  unfold interpolateV
  rw [if_neg (by decide), interpolateP_integer tableC 0 [5, 5, 5] h1 h2]
  norm_num [writeOut, sInt, truncQ, tableC, show List.range 3 = [0, 1, 2] from rfl]

/-- C6 amended: `interpolate(s, buffer)` leaves the output buffer untouched
whenever `s < 0`, `s ≥ numberOfShapes` (in particular always when
`numberOfShapes = 0`), or the output buffer's size is LESS THAN
`envelopeSize`; a buffer larger than `envelopeSize` is accepted and its
first `envelopeSize` entries are written. -/
theorem interpolate_noop_conditions (st : Interp) (s : ℚ) (buf : List ℚ)
    (h : s < 0 ∨ (st.numberOfShapes : ℚ) ≤ s ∨ buf.length < st.envsize) :
    interpolateV st s buf = buf := by
  unfold interpolateV
  by_cases hb : buf.length < st.envsize
  · rw [if_pos hb]
  · rw [if_neg hb]
    apply interpolateP_invalid
    rcases h with h | h | h
    · exact Or.inl h
    · exact Or.inr h
    · exact absurd h hb

/-- Witness for the amended C6 at `st = tableC`, `s = 5`, `buf = [1, 2]`. -/
theorem interpolate_noop_conditions_inst :
    ((5 : ℚ) < 0 ∨ (tableC.numberOfShapes : ℚ) ≤ 5 ∨ ([1, 2] : List ℚ).length < tableC.envsize) ∧
    interpolateV tableC 5 [1, 2] = [1, 2] :=
  ⟨Or.inr (Or.inl (by norm_num [tableC])),
    interpolate_noop_conditions tableC 5 [1, 2] (Or.inr (Or.inl (by norm_num [tableC])))⟩

/-- C7 counterexample: calling `setDataAndPeaks` on a one-shape table with a
two-entry peak list (so `peaks.length ≠ numberOfShapes`) and shapes whose
last sample is 5 (nonzero boundary) mutates the table anyway, against the
claim that it fails with the prior state retained. -/
theorem setDataAndPeaks_accepts_invalid :
    tablePrior.numberOfShapes = 1 ∧
    ([0, 1] : List ℤ).length ≠ tablePrior.numberOfShapes ∧
    (setDataAndPeaks tablePrior (some [0, 1, 5, 0, 1, 5]) [0, 1]).numberOfShapes = 2 ∧
    (setDataAndPeaks tablePrior (some [0, 1, 5, 0, 1, 5]) [0, 1]).shapes
      = [[0, 1, 5], [0, 1, 5]] := by
  decide

/-- C7 amended: `setDataAndPeaks` fails (leaving the state unchanged) only
when the data buffer is absent; otherwise it unconditionally replaces the
shapes and peaks, setting `numberOfShapes = peaks.length`, with no check of
the prior shape count and no zero-boundary validation. -/
theorem setDataAndPeaks_only_null_checked (st : Interp) (peaks : List ℤ) (d : List ℚ) :
    setDataAndPeaks st none peaks = st ∧
    (setDataAndPeaks st (some d) peaks).numberOfShapes = peaks.length ∧
    (setDataAndPeaks st (some d) peaks).peaks = peaks ∧
    (setDataAndPeaks st (some d) peaks).envsize = st.envsize ∧
    (setDataAndPeaks st (some d) peaks).shapes.length = peaks.length :=
  ⟨rfl, rfl, rfl, rfl, by simp [setDataAndPeaks]⟩

/-- C8 counterexample: `addLinearShape` with first control point `(0, 5)` —
amplitude nonzero — appends the shape and increments `numberOfShapes`,
against the claim that it must fail unless the first point is exactly
`(0, 0)`. -/
theorem addLinearShape_accepts_nonzero_amplitude :
    (([((0 : ℤ), (5 : ℚ)), (1, 0)].headD (0, 0)).2 ≠ 0) ∧
    (addLinearShape (mkEmpty 2) [(0, 5), (1, 0)] 0).numberOfShapes
      = (mkEmpty 2).numberOfShapes + 1 := by
  decide

/-- C8 amended: `addLinearShape` fails with no mutation exactly when the
first control point's INDEX is nonzero or the last control point's INDEX is
not `envelopeSize - 1` (the amplitudes are not checked); otherwise it
rasterizes the control points by linear interpolation, appends the shape and
the peak index, and increments `numberOfShapes`. -/
theorem addLinearShape_mutation (st : Interp) (points : List (ℤ × ℚ)) (pk : ℤ) :
    (((points.headD (0, 0)).1 ≠ 0 ∨ (points.getLastD (0, 0)).1 ≠ (st.envsize : ℤ) - 1) →
      addLinearShape st points pk = st) ∧
    ((points.headD (0, 0)).1 = 0 → (points.getLastD (0, 0)).1 = (st.envsize : ℤ) - 1 →
      addLinearShape st points pk
        = { st with
            shapes := st.shapes ++ [rasterAll st.envsize points],
            numberOfShapes := st.numberOfShapes + 1,
            peaks := st.peaks ++ [pk] }) := by
  constructor
  · intro h
    rw [addLinearShape, if_pos h]
  · intro h1 h2
    rw [addLinearShape, if_neg (by push_neg; exact ⟨h1, h2⟩)]

/-- Witness for the amended C8 at `st = mkEmpty 2`,
`points = [(0,0), (1,0)]`, `pk = 0`. -/
theorem addLinearShape_mutation_inst :
    ([((0 : ℤ), (0 : ℚ)), (1, 0)].headD (0, 0)).1 = 0 ∧
    ([((0 : ℤ), (0 : ℚ)), (1, 0)].getLastD (0, 0)).1 = ((mkEmpty 2).envsize : ℤ) - 1 ∧
    addLinearShape (mkEmpty 2) [(0, 0), (1, 0)] 0
      = { mkEmpty 2 with
          shapes := (mkEmpty 2).shapes ++ [rasterAll (mkEmpty 2).envsize [(0, 0), (1, 0)]],
          numberOfShapes := (mkEmpty 2).numberOfShapes + 1,
          peaks := (mkEmpty 2).peaks ++ [0] } :=
  ⟨by decide, by decide,
    (addLinearShape_mutation (mkEmpty 2) [(0, 0), (1, 0)] 0).2 (by decide) (by decide)⟩

/-- C4: for every consistent table whose shapes all start and end with
sample 0, and every valid factor `s` in `[0, numberOfShapes)` with an output
buffer of size `envelopeSize`, the interpolated output keeps
`buffer[0] = 0` and `buffer[envelopeSize-1] = 0`. -/
theorem interpolate_preserves_zero_ends (st : Interp) (s : ℚ) (buf : List ℚ)
    (hv : Valid st) (hz : ZeroEnds st)
    (hs0 : 0 ≤ s) (hs1 : s < (st.numberOfShapes : ℚ))
    (hbuf : buf.length = st.envsize) :
    (interpolateP st s buf).getD 0 0 = 0 ∧
    (interpolateP st s buf).getD (st.envsize - 1) 0 = 0 := by
  obtain ⟨hns, hpl, hsl, hpk⟩ := hv
  have hn : 0 < st.numberOfShapes := by
    rcases Nat.eq_zero_or_pos st.numberOfShapes with h0 | h0
    · rw [h0] at hs1
      norm_num at hs1
      linarith
    · exact h0
  have hi1 : sInt s < st.numberOfShapes := sInt_lt hs0 hs1
  have hi2 : idx2 st s < st.numberOfShapes := Nat.mod_lt _ hn
  have hplen : st.peaks.length = st.numberOfShapes := by omega
  have hslen : st.shapes.length = st.numberOfShapes := by omega
  have henv : 1 ≤ st.envsize := by
    have hmem : st.peaks.getD 0 0 ∈ st.peaks := by
      rw [List.getD_eq_getElem _ _ (by omega)]
      exact List.getElem_mem _
    have := hpk _ hmem
    omega
  have h1 : ¬(s < 0 ∨ (st.numberOfShapes : ℚ) ≤ s) := by
    push_neg
    exact ⟨hs0, hs1⟩
  have hshAmem : st.shapes.getD (sInt s) [] ∈ st.shapes := by
    rw [List.getD_eq_getElem _ _ (by omega)]
    exact List.getElem_mem _
  have hshBmem : st.shapes.getD (idx2 st s) [] ∈ st.shapes := by
    rw [List.getD_eq_getElem _ _ (by omega)]
    exact List.getElem_mem _
  obtain ⟨hA0, hAE⟩ := hz _ hshAmem
  obtain ⟨hB0, hBE⟩ := hz _ hshBmem
  by_cases h2 : sDec s = 0
  · rw [interpolateP_integer st s buf h1 h2]
    constructor
    · rw [writeOut_getD _ _ _ (by omega), if_pos (by omega)]
      exact hA0
    · rw [writeOut_getD _ _ _ (by omega), if_pos (by omega)]
      exact hAE
  · by_cases h3 : ghostTrunc st s ≠ 0 ∧ ghostTrunc st s ≠ (st.envsize : ℤ) - 1
    · obtain ⟨hgf, hga, hgb⟩ := ghostTrunc_eq_floor st s hs0 hpk (by omega) (by omega)
      have hg1 : 1 ≤ ghostTrunc st s := by omega
      have hg2 : ghostTrunc st s ≤ (st.envsize : ℤ) - 2 := by omega
      have hE3 : 3 ≤ st.envsize := by omega
      have hp1mem : st.peaks.getD (sInt s) 0 ∈ st.peaks := by
        rw [List.getD_eq_getElem _ _ (by omega)]
        exact List.getElem_mem _
      have hp2mem : st.peaks.getD (idx2 st s) 0 ∈ st.peaks := by
        rw [List.getD_eq_getElem _ _ (by omega)]
        exact List.getElem_mem _
      have hp1 := hpk _ hp1mem
      have hp2 := hpk _ hp2mem
      have hshAlen : (st.shapes.getD (sInt s) []).length = st.envsize := hsl _ hshAmem
      have hshBlen : (st.shapes.getD (idx2 st s) []).length = st.envsize := hsl _ hshBmem
      rw [interpolateP_split st s buf h1 h2 h3]
      constructor
      · rw [writeOut_getD _ _ _ (by omega), if_pos (by omega)]
        simp only [stretchedPair_fst, stretchedPair_snd]
        rw [stretched_getD_zero_left _ _ _ st.envsize hshAlen hE3 hg1 hg2 hA0,
          stretched_getD_zero_left _ _ _ st.envsize hshBlen hE3 hg1 hg2 hB0]
        ring
      · rw [writeOut_getD _ _ _ (by omega), if_pos (by omega)]
        simp only [stretchedPair_fst, stretchedPair_snd]
        rw [stretched_getD_last_zero _ _ _ st.envsize hshAlen hE3 hg1 hg2 (by omega) hAE,
          stretched_getD_last_zero _ _ _ st.envsize hshBlen hE3 hg1 hg2 (by omega) hBE]
        ring
    · rw [interpolateP_whole st s buf h1 h2 h3]
      constructor
      · rw [writeOut_getD _ _ _ (by omega), if_pos (by omega)]
        rw [hA0, hB0]
        ring
      · rw [writeOut_getD _ _ _ (by omega), if_pos (by omega)]
        rw [hAE, hBE]
        ring

/-- Witness for C4 at `st = tableA`, `s = 1/2`, `buf = [0, 0, 0, 0]`. -/
theorem interpolate_preserves_zero_ends_inst :
    Valid tableA ∧ ZeroEnds tableA ∧ (0 : ℚ) ≤ 1/2 ∧
      (1/2 : ℚ) < (tableA.numberOfShapes : ℚ) ∧
      ([0, 0, 0, 0] : List ℚ).length = tableA.envsize ∧
      (interpolateP tableA (1/2) [0, 0, 0, 0]).getD 0 0 = 0 :=
  ⟨by simp only [Valid]; decide, by simp only [ZeroEnds]; decide, by norm_num,
    by norm_num [tableA], by decide,
    (interpolate_preserves_zero_ends tableA (1/2) [0, 0, 0, 0]
      (by simp only [Valid]; decide) (by simp only [ZeroEnds]; decide)
      (by norm_num) (by norm_num [tableA]) (by decide)).1⟩

theorem interpolateP_tableA_half :
    interpolateP tableA (1/2) [0, 0, 0, 0] = [0, 1, 1/4, 0] := by
  have hd : sDec ((1 : ℚ)/2) = 1/2 := by norm_num [sDec, sInt, truncQ]
  have hsi : sInt ((1 : ℚ)/2) = 0 := by norm_num [sInt, truncQ]
  have hix : idx2 tableA (1/2) = 1 := by norm_num [idx2, hsi, tableA]
  have hg : ghostTrunc tableA (1/2) = 1 := by
    unfold ghostTrunc
    rw [hsi, hix, show tableA.peaks.getD 0 0 = 1 from rfl,
      show tableA.peaks.getD 1 0 = 2 from rfl, hd]
    norm_num [interpPeak, truncQ]
  have h1 : ¬((1/2 : ℚ) < 0 ∨ (tableA.numberOfShapes : ℚ) ≤ 1/2) := by norm_num [tableA]
  have h2 : ¬sDec ((1 : ℚ)/2) = 0 := by
    rw [hd]
    norm_num
  have h3 : ghostTrunc tableA (1/2) ≠ 0 ∧ ghostTrunc tableA (1/2) ≠ (tableA.envsize : ℤ) - 1 := by
    rw [hg]
    constructor <;> decide
  have e1 : stretchCurve [0, 1] ((1 : ℤ) + 1) = [0, 1] := by
    simp only [stretchCurve, show Int.toNat ((1 : ℤ) + 1) = 2 from rfl,
      show List.range 2 = [0, 1] from rfl, List.map_cons, List.map_nil, stretchSample]
    norm_num [truncQ, Int.fract, show Int.toNat 1 = 1 from rfl]
  have e2 : stretchCurve [1, 0, 0] (((4 : ℕ) : ℤ) - 1) = [1, 0, 0] := by
    simp only [stretchCurve, show Int.toNat (((4 : ℕ) : ℤ) - 1) = 3 from rfl,
      show List.range 3 = [0, 1, 2] from rfl, List.map_cons, List.map_nil, stretchSample]
    norm_num [truncQ, Int.fract, show Int.toNat 1 = 1 from rfl, show Int.toNat 2 = 2 from rfl]
  have e3 : stretchCurve [0, 0, 1] ((1 : ℤ) + 1) = [0, 1] := by
    simp only [stretchCurve, show Int.toNat ((1 : ℤ) + 1) = 2 from rfl,
      show List.range 2 = [0, 1] from rfl, List.map_cons, List.map_nil, stretchSample]
    norm_num [truncQ, Int.fract, show Int.toNat 1 = 1 from rfl, show Int.toNat 2 = 2 from rfl]
  have e4 : stretchCurve [1, 0] (((4 : ℕ) : ℤ) - 1) = [1, 1/2, 0] := by
    simp only [stretchCurve, show Int.toNat (((4 : ℕ) : ℤ) - 1) = 3 from rfl,
      show List.range 3 = [0, 1, 2] from rfl, List.map_cons, List.map_nil, stretchSample]
    norm_num [truncQ, Int.fract, show Int.toNat 1 = 1 from rfl]
  have hsp1 : (stretchedPair tableA 0 1 1).1 = [0, 1, 0, 0, 1] := by
    rw [stretchedPair_fst,
      show tableA.shapes.getD 0 [] = [0, 1, 0, 0] from rfl,
      show tableA.peaks.getD 0 0 = 1 from rfl,
      show tableA.envsize = 4 from rfl,
      show padLeft (([0, 1, 0, 0] : List ℚ).take ((1 : ℤ).toNat + 1)) = [0, 1] from rfl,
      show padRight (([0, 1, 0, 0] : List ℚ).drop (1 : ℤ).toNat) = [1, 0, 0] from rfl,
      e1, e2]
    rfl
  have hsp2 : (stretchedPair tableA 0 1 1).2 = [0, 1, 1/2, 0, 1] := by
    rw [stretchedPair_snd,
      show tableA.shapes.getD 1 [] = [0, 0, 1, 0] from rfl,
      show tableA.peaks.getD 1 0 = 2 from rfl,
      show tableA.envsize = 4 from rfl,
      show padLeft (([0, 0, 1, 0] : List ℚ).take ((2 : ℤ).toNat + 1)) = [0, 0, 1] from rfl,
      show padRight (([0, 0, 1, 0] : List ℚ).drop (2 : ℤ).toNat) = [1, 0] from rfl,
      e3, e4]
    rfl
  rw [interpolateP_split tableA (1/2) [0, 0, 0, 0] h1 h2 h3]
  simp only [hsi, hix, hg, hsp1, hsp2, hd, writeOut,
    show List.range (([0, 0, 0, 0] : List ℚ).length) = [0, 1, 2, 3] from rfl,
    List.map_cons, List.map_nil, show tableA.envsize = 4 from rfl]
  norm_num

theorem interpolateSpecModel_tableA_half :
    interpolateSpecModel tableA (1/2) [0, 0, 0, 0] = [0, 1/2, 1/2, 0] := by
  have hd : sDec ((1 : ℚ)/2) = 1/2 := by norm_num [sDec, sInt, truncQ]
  have hsi : sInt ((1 : ℚ)/2) = 0 := by norm_num [sInt, truncQ]
  have hix : idx2 tableA (1/2) = 1 := by norm_num [idx2, hsi, tableA]
  have h1 : ¬((1/2 : ℚ) < 0 ∨ (tableA.numberOfShapes : ℚ) ≤ 1/2) := by norm_num [tableA]
  have h2 : ¬sDec ((1 : ℚ)/2) = 0 := by
    rw [hd]
    norm_num
  have m1 : stretchCurveSpecModel [0, 1] (5/2) false = [0, 2/3] := by
    simp only [stretchCurveSpecModel]
    norm_num [show List.range (Int.toNat 2) = [0, 1] from rfl,
      show List.range 2 = [0, 1] from rfl,
      show Int.toNat 1 = 1 from rfl, show Int.toNat 0 = 0 from rfl]
  have m2 : stretchCurveSpecModel [0, 0, 1] (5/2) false = [0, 1/3] := by
    simp only [stretchCurveSpecModel]
    norm_num [show List.range (Int.toNat 2) = [0, 1] from rfl,
      show List.range 2 = [0, 1] from rfl,
      show Int.toNat 1 = 1 from rfl, show Int.toNat 2 = 2 from rfl]
    norm_num [Int.fract]
  simp only [interpolateSpecModel]
  rw [if_neg h1, if_neg h2, hsi, hix,
    show tableA.peaks.getD 0 0 = 1 from rfl,
    show tableA.peaks.getD 1 0 = 2 from rfl,
    show tableA.shapes.getD 0 [] = [0, 1, 0, 0] from rfl,
    show tableA.shapes.getD 1 [] = [0, 0, 1, 0] from rfl,
    show tableA.envsize = 4 from rfl, hd]
  rw [if_neg (by decide : ¬((1 : ℤ) = 2 ∧ ((1 : ℤ) = 0 ∨ (1 : ℤ) = ((4 : ℕ) : ℤ) - 1)))]
  norm_num [m1, m2, writeOut,
    show ((1 : ℤ).toNat + 1) = 2 from rfl, show ((2 : ℤ).toNat + 1) = 3 from rfl,
    show ((1 : ℤ).toNat) = 1 from rfl, show ((2 : ℤ).toNat) = 2 from rfl,
    show List.range (([0, 0, 0, 0] : List ℚ).length) = [0, 1, 2, 3] from rfl,
    show List.range 4 = [0, 1, 2, 3] from rfl, List.map_cons, List.map_nil]

/-- C1 counterexample: at the table with `envelopeSize = 4`,
`shapes = [[0,1,0,0],[0,0,1,0]]`, `peaks = [1,2]` and `s = 1/2`, the
spec-described interpolation (real-valued `ghostPeak = 3/2`, virtual lengths
`5/2` and `5/2`, `excludePeak` on integer left length) produces
`[0, 1/2, 1/2, 0]`, while `interpolate` produces `[0, 1, 1/4, 0]`: the code
does not compute with the real-valued ghost peak, it truncates it to the
integer 1 and stretches to the integer lengths 2 and 3. -/
theorem ghost_peak_not_real_valued :
    interpolateSpecModel tableA (1/2) [0, 0, 0, 0] = [0, 1/2, 1/2, 0] ∧
    interpolateP tableA (1/2) [0, 0, 0, 0] = [0, 1, 1/4, 0] ∧
    interpolateP tableA (1/2) [0, 0, 0, 0] ≠ interpolateSpecModel tableA (1/2) [0, 0, 0, 0] := by
  refine ⟨interpolateSpecModel_tableA_half, interpolateP_tableA_half, ?_⟩
  rw [interpolateSpecModel_tableA_half, interpolateP_tableA_half]
  intro h
  have h1 := congrArg (fun l => List.getD l 1 0) h
  norm_num at h1

/-- C1 amended: for every valid non-integer factor on the split path, the
peak position that `interpolate` actually uses is the `(int)`-TRUNCATION of
the real-valued linear interpolation `peak[i1] + frac(s)*(peak[i2]-peak[i1])`,
and both neighbors' left halves are stretched to the INTEGER length
`peak + 1` while the right halves are stretched to the INTEGER length
`envelopeSize - peak` (single-sample halves first padded with a zero), with
no `excludePeak` compensation; the duplicate peak sample is instead handled
by splicing the right half in before the left half's last sample. -/
theorem split_uses_truncated_peak (st : Interp) (s : ℚ) (buf : List ℚ)
    (hs0 : 0 ≤ s) (hs1 : s < (st.numberOfShapes : ℚ)) (h2 : sDec s ≠ 0)
    (h3a : ghostTrunc st s ≠ 0) (h3b : ghostTrunc st s ≠ (st.envsize : ℤ) - 1) :
    ghostTrunc st s
      = truncQ ((st.peaks.getD (sInt s) 0 : ℚ)
          + sDec s * ((st.peaks.getD (idx2 st s) 0 : ℚ) - (st.peaks.getD (sInt s) 0 : ℚ))) ∧
    interpolateP st s buf
      = writeOut st.envsize (fun i =>
          (1 - sDec s) * ((recombine
              (stretchCurve
                (padLeft ((st.shapes.getD (sInt s) []).take ((st.peaks.getD (sInt s) 0).toNat + 1)))
                (ghostTrunc st s + 1))
              (stretchCurve
                (padRight ((st.shapes.getD (sInt s) []).drop (st.peaks.getD (sInt s) 0).toNat))
                ((st.envsize : ℤ) - ghostTrunc st s))).getD i 0)
            + sDec s * ((recombine
              (stretchCurve
                (padLeft ((st.shapes.getD (idx2 st s) []).take ((st.peaks.getD (idx2 st s) 0).toNat + 1)))
                (ghostTrunc st s + 1))
              (stretchCurve
                (padRight ((st.shapes.getD (idx2 st s) []).drop (st.peaks.getD (idx2 st s) 0).toNat))
                ((st.envsize : ℤ) - ghostTrunc st s))).getD i 0)) buf := by
  constructor
  · unfold ghostTrunc interpPeak
    congr 1
    ring
  · have h1 : ¬(s < 0 ∨ (st.numberOfShapes : ℚ) ≤ s) := by
      push_neg
      exact ⟨hs0, hs1⟩
    rw [interpolateP_split st s buf h1 h2 ⟨h3a, h3b⟩]
    simp only [stretchedPair_fst, stretchedPair_snd]

/-- Witness for the amended C1 at `st = tableA`, `s = 1/2`,
`buf = [0, 0, 0, 0]`. -/
theorem split_uses_truncated_peak_inst :
    (0 : ℚ) ≤ 1/2 ∧ (1/2 : ℚ) < (tableA.numberOfShapes : ℚ) ∧
    sDec ((1 : ℚ)/2) ≠ 0 ∧ ghostTrunc tableA (1/2) ≠ 0 ∧
    ghostTrunc tableA (1/2) ≠ (tableA.envsize : ℤ) - 1 ∧
    ghostTrunc tableA (1/2)
      = truncQ ((tableA.peaks.getD (sInt (1/2)) 0 : ℚ)
          + sDec ((1 : ℚ)/2) * ((tableA.peaks.getD (idx2 tableA (1/2)) 0 : ℚ)
              - (tableA.peaks.getD (sInt (1/2)) 0 : ℚ))) :=
  ⟨by norm_num, by norm_num [tableA], by norm_num [sDec, sInt, truncQ],
    by norm_num [ghostTrunc, interpPeak, idx2, sDec, sInt, truncQ, tableA],
    by norm_num [ghostTrunc, interpPeak, idx2, sDec, sInt, truncQ, tableA],
    (split_uses_truncated_peak tableA (1/2) [0, 0, 0, 0] (by norm_num)
      (by norm_num [tableA]) (by norm_num [sDec, sInt, truncQ])
      (by norm_num [ghostTrunc, interpPeak, idx2, sDec, sInt, truncQ, tableA])
      (by norm_num [ghostTrunc, interpPeak, idx2, sDec, sInt, truncQ, tableA])).1⟩

/-- C10: on the split path (truncated blended peak strictly between 0 and
`envelopeSize - 1`), the output sample at the computed peak index is exactly
the linear cross-fade `(1 - frac(s)) * shapes[i1][peaks[i1]] +
frac(s) * shapes[i2][peaks[i2]]` of the two source peak amplitudes. -/
theorem peak_amplitude_crossfade (st : Interp) (s : ℚ) (buf : List ℚ)
    (hv : Valid st) (hs0 : 0 ≤ s) (hs1 : s < (st.numberOfShapes : ℚ))
    (hbuf : buf.length = st.envsize) (h2 : sDec s ≠ 0)
    (h3a : ghostTrunc st s ≠ 0) (h3b : ghostTrunc st s ≠ (st.envsize : ℤ) - 1) :
    (interpolateP st s buf).getD (ghostTrunc st s).toNat 0
      = (1 - sDec s)
          * ((st.shapes.getD (sInt s) []).getD (st.peaks.getD (sInt s) 0).toNat 0)
        + sDec s
          * ((st.shapes.getD (idx2 st s) []).getD (st.peaks.getD (idx2 st s) 0).toNat 0) := by
  obtain ⟨hns, hpl, hsl, hpk⟩ := hv
  have hn : 0 < st.numberOfShapes := by
    rcases Nat.eq_zero_or_pos st.numberOfShapes with h0 | h0
    · rw [h0] at hs1
      norm_num at hs1
      linarith
    · exact h0
  have hi1 : sInt s < st.numberOfShapes := sInt_lt hs0 hs1
  have hi2 : idx2 st s < st.numberOfShapes := Nat.mod_lt _ hn
  have hplen : st.peaks.length = st.numberOfShapes := by omega
  have hslen : st.shapes.length = st.numberOfShapes := by omega
  have h1 : ¬(s < 0 ∨ (st.numberOfShapes : ℚ) ≤ s) := by
    push_neg
    exact ⟨hs0, hs1⟩
  have hshAmem : st.shapes.getD (sInt s) [] ∈ st.shapes := by
    rw [List.getD_eq_getElem _ _ (by omega)]
    exact List.getElem_mem _
  have hshBmem : st.shapes.getD (idx2 st s) [] ∈ st.shapes := by
    rw [List.getD_eq_getElem _ _ (by omega)]
    exact List.getElem_mem _
  have hp1mem : st.peaks.getD (sInt s) 0 ∈ st.peaks := by
    rw [List.getD_eq_getElem _ _ (by omega)]
    exact List.getElem_mem _
  have hp2mem : st.peaks.getD (idx2 st s) 0 ∈ st.peaks := by
    rw [List.getD_eq_getElem _ _ (by omega)]
    exact List.getElem_mem _
  have hp1 := hpk _ hp1mem
  have hp2 := hpk _ hp2mem
  obtain ⟨hgf, hga, hgb⟩ := ghostTrunc_eq_floor st s hs0 hpk (by omega) (by omega)
  have hg1 : 1 ≤ ghostTrunc st s := by omega
  have hg2 : ghostTrunc st s ≤ (st.envsize : ℤ) - 2 := by omega
  have hE3 : 3 ≤ st.envsize := by omega
  have hshAlen : (st.shapes.getD (sInt s) []).length = st.envsize := hsl _ hshAmem
  have hshBlen : (st.shapes.getD (idx2 st s) []).length = st.envsize := hsl _ hshBmem
  rw [interpolateP_split st s buf h1 h2 ⟨h3a, h3b⟩]
  rw [writeOut_getD _ _ _ (by omega), if_pos (by omega)]
  simp only [stretchedPair_fst, stretchedPair_snd]
  rw [stretched_getD_peak _ _ _ st.envsize hshAlen hE3 hg1 hg2 (by omega),
    stretched_getD_peak _ _ _ st.envsize hshBlen hE3 hg1 hg2 (by omega)]

/-- Witness for C10 at `st = tableA`, `s = 1/2`. -/
theorem peak_amplitude_crossfade_inst :
    Valid tableA ∧ (0 : ℚ) ≤ 1/2 ∧ (1/2 : ℚ) < (tableA.numberOfShapes : ℚ) ∧
    ([0, 0, 0, 0] : List ℚ).length = tableA.envsize ∧
    sDec ((1 : ℚ)/2) ≠ 0 ∧ ghostTrunc tableA (1/2) ≠ 0 ∧
    ghostTrunc tableA (1/2) ≠ (tableA.envsize : ℤ) - 1 ∧
    (interpolateP tableA (1/2) [0, 0, 0, 0]).getD (ghostTrunc tableA (1/2)).toNat 0
      = (1 - sDec ((1 : ℚ)/2))
          * ((tableA.shapes.getD (sInt (1/2)) []).getD (tableA.peaks.getD (sInt (1/2)) 0).toNat 0)
        + sDec ((1 : ℚ)/2)
          * ((tableA.shapes.getD (idx2 tableA (1/2)) []).getD
              (tableA.peaks.getD (idx2 tableA (1/2)) 0).toNat 0) :=
  ⟨by simp only [Valid]; decide, by norm_num, by norm_num [tableA], by decide,
    by norm_num [sDec, sInt, truncQ],
    by norm_num [ghostTrunc, interpPeak, idx2, sDec, sInt, truncQ, tableA],
    by norm_num [ghostTrunc, interpPeak, idx2, sDec, sInt, truncQ, tableA],
    peak_amplitude_crossfade tableA (1/2) [0, 0, 0, 0] (by simp only [Valid]; decide)
      (by norm_num) (by norm_num [tableA]) (by decide)
      (by norm_num [sDec, sInt, truncQ])
      (by norm_num [ghostTrunc, interpPeak, idx2, sDec, sInt, truncQ, tableA])
      (by norm_num [ghostTrunc, interpPeak, idx2, sDec, sInt, truncQ, tableA])⟩

/-- C9: the truncated blended peak lands at boundary index 0 although the
two source peaks (0 and 1) do NOT coincide there: with `peaks = [0, 1]` and
`s = 1/2` the real-valued blend is `1/2`, the `(int)` cast truncates it to
`0`, and `interpolate` takes the no-split whole-shape blend path — the
code's own comment asserts this can only happen when both peaks coincide at
a boundary. -/
theorem no_split_path_without_coincident_peaks :
    tableB.peaks.getD 0 0 ≠ tableB.peaks.getD 1 0 ∧
    ghostTrunc tableB (1/2) = 0 ∧
    interpolateP tableB (1/2) [0, 0, 0, 0] = [0, 3, 0, 0] := by
  have hd : sDec ((1 : ℚ)/2) = 1/2 := by norm_num [sDec, sInt, truncQ]
  have hg : ghostTrunc tableB (1/2) = 0 := by
    norm_num [ghostTrunc, interpPeak, idx2, sInt, truncQ, hd, tableB]
  refine ⟨by decide, hg, ?_⟩
  have h1 : ¬((1/2 : ℚ) < 0 ∨ (tableB.numberOfShapes : ℚ) ≤ 1/2) := by norm_num [tableB]
  have h2 : ¬sDec ((1 : ℚ)/2) = 0 := by
    rw [hd]
    norm_num
  have h3 : ¬(ghostTrunc tableB (1/2) ≠ 0 ∧ ghostTrunc tableB (1/2) ≠ (tableB.envsize : ℤ) - 1) := by
    rw [hg]
    simp
  rw [interpolateP_whole tableB (1/2) [0, 0, 0, 0] h1 h2 h3]
  norm_num [writeOut, hd, sInt, truncQ, idx2, tableB,
    show List.range 4 = [0, 1, 2, 3] from rfl]

end EnvInterp
